import Mathlib

/-!
Shallow embedding of the LLM-RAG-Architecture inference services:
the cross-encoder reranker (src/reranker/main.py), the causal-LM
yes/no reranker (src/reranker/reranker-qwen3.py) and the bi-encoder
embedder (src/src/embedding/main.py).  Tensors are lists of reals,
the HuggingFace tokenizer and the model forward pass are abstract
function parameters, and torch primitives (sigmoid, log_softmax,
F.normalize, clamp, squeeze(-1).tolist()) are embedded pointwise
over those lists.
-/

namespace Spec2Proof

/-- torch.sigmoid on one scalar. -/
noncomputable def sigmoid (x : ℝ) : ℝ := 1 / (1 + Real.exp (-x))

/-- torch.nn.functional.log_softmax along a vector:
each entry becomes `x - log (sum of exp over the vector)`. -/
noncomputable def logSoftmax (v : List ℝ) : List ℝ :=
  v.map (fun x => x - Real.log ((v.map Real.exp).sum))

/-- Euclidean norm of a vector. -/
noncomputable def l2norm (v : List ℝ) : ℝ :=
  Real.sqrt ((v.map (fun x => x ^ 2)).sum)

/-- torch.nn.functional.normalize with p=2 and its default eps:
divide every entry by `max (l2norm v) 1e-12`. -/
noncomputable def l2normalize (v : List ℝ) : List ℝ :=
  v.map (fun x => x / max (l2norm v) (1e-12))

/-- The value of a python expression `tensor.tolist()` (or of the raw
tensor after squeezing): a bare float, a flat list, or a nested list. -/
inductive PyVal where
  | scalar (x : ℝ)
  | vec (xs : List ℝ)
  | mat (m : List (List ℝ))

/-- `t.squeeze(-1).tolist()` for a 2-d tensor held as a list of rows:
when the last dimension has size 1 the squeeze drops it and tolist
yields a flat list; otherwise the tensor stays 2-d and tolist yields a
nested list. -/
def squeezeLastTolist (m : List (List ℝ)) : PyVal :=
  if m.all (fun r => r.length = 1) then
    .vec (m.map (fun r => r.headD 0))
  else
    .mat m

/-- The guard `if isinstance(scores, float): scores = [scores]` of
src/reranker/main.py: a bare scalar is re-wrapped into a one-element
sequence, every other shape passes through. -/
def rescueScalar : PyVal → PyVal
  | .scalar x => .vec [x]
  | v => v

namespace RerankerMain

/-- The model identifier of the cross-encoder service. -/
def model_id : String := "cross-encoder/ms-marco-MiniLM-L6-v2"

/-- The query row built by `rerank`: the one query repeated once per
document (`queries = [request.query] * len(request.documents)`). -/
def pairedQueries (query : String) (documents : List String) : List String :=
  List.replicate documents.length query

/-- src/reranker/main.py `rerank`: pair the query with each document,
tokenize (abstract `tok`), run the model (abstract `modelLogits`,
yielding the logits rows), apply sigmoid, squeeze the last dimension,
convert to a python value and re-wrap a collapsed scalar. -/
noncomputable def rerank {E : Type} (tok : List String → List String → E)
    (modelLogits : E → List (List ℝ))
    (query : String) (documents : List String) : PyVal :=
  let queries := pairedQueries query documents
  let features := tok queries documents
  let logits := modelLogits features
  let scores := squeezeLastTolist (logits.map (fun row => row.map sigmoid))
  rescueScalar scores

end RerankerMain

theorem sigmoid_pos (x : ℝ) : 0 < sigmoid x := by
  unfold sigmoid
  positivity

theorem sigmoid_lt_one (x : ℝ) : sigmoid x < 1 := by
  unfold sigmoid
  rw [div_lt_one (by positivity)]
  linarith [Real.exp_pos (-x)]

theorem rerank_eq_vec {E : Type} (tok : List String → List String → E)
    (modelLogits : E → List (List ℝ)) (query : String) (documents : List String)
    (hshape : ∀ row ∈ modelLogits (tok (RerankerMain.pairedQueries query documents) documents),
      row.length = 1) :
    RerankerMain.rerank tok modelLogits query documents =
      .vec ((modelLogits (tok (RerankerMain.pairedQueries query documents) documents)).map
        (fun row => sigmoid (row.headD 0))) := by
  have hmap : (modelLogits (tok (RerankerMain.pairedQueries query documents) documents)).map
      ((fun r => r.headD 0) ∘ fun row => List.map sigmoid row) =
      (modelLogits (tok (RerankerMain.pairedQueries query documents) documents)).map
      (fun row => sigmoid (row.headD 0)) := by
    apply List.map_congr_left
    intro row hrow
    match row, hshape row hrow with
    | [x], _ => rfl
  have hall : ((modelLogits (tok (RerankerMain.pairedQueries query documents) documents)).map
      (fun row => row.map sigmoid)).all (fun r => r.length = 1) = true := by
    simp only [List.all_eq_true, List.mem_map]
    rintro r ⟨row, hrow, rfl⟩
    simpa using hshape row hrow
  unfold RerankerMain.rerank squeezeLastTolist
  simp only [hall, if_true, List.map_map, hmap, rescueScalar]

/-- C1: for every rerank request with a query and N >= 0 documents
(given the cross-encoder model emits one logit row per pair, one logit
per row), the scorer returns a sequence of exactly N floats where
score i is the sigmoid of the logit of pair i — the i-th pair being the
query with document i (input order preserved) — and every score lies
in [0,1]. -/
theorem C1_rerank_length_order_bounds {E : Type} (tok : List String → List String → E)
    (modelLogits : E → List (List ℝ)) (query : String) (documents : List String)
    (hshape : ∀ row ∈ modelLogits (tok (RerankerMain.pairedQueries query documents) documents),
      row.length = 1)
    (hlen : (modelLogits (tok (RerankerMain.pairedQueries query documents) documents)).length =
      documents.length) :
    ∃ scores : List ℝ,
      RerankerMain.rerank tok modelLogits query documents = PyVal.vec scores ∧
      scores.length = documents.length ∧
      (∀ i, i < documents.length →
        scores.getD i 0 =
          sigmoid (((modelLogits (tok (RerankerMain.pairedQueries query documents)
            documents)).getD i []).headD 0) ∧
        (RerankerMain.pairedQueries query documents).getD i "" = query) ∧
      (∀ s ∈ scores, 0 ≤ s ∧ s ≤ 1) := by
  refine ⟨_, rerank_eq_vec tok modelLogits query documents hshape, ?_, ?_, ?_⟩
  · simpa using hlen
  · intro i hi
    have hi' : i < (modelLogits (tok (RerankerMain.pairedQueries query documents)
        documents)).length := hlen ▸ hi
    constructor
    · rw [List.getD_eq_getElem _ _ (by simpa using hi'), List.getD_eq_getElem _ _ hi']
      simp
    · rw [List.getD_eq_getElem _ _ (by simpa [RerankerMain.pairedQueries] using hi)]
      simp [RerankerMain.pairedQueries]
  · intro s hs
    simp only [List.mem_map] at hs
    obtain ⟨row, _, rfl⟩ := hs
    exact ⟨le_of_lt (sigmoid_pos _), le_of_lt (sigmoid_lt_one _)⟩

/-- Witness for C1 at a concrete two-document request with a model
answering logit 0 for both pairs. -/
theorem C1_witness : ∃ scores : List ℝ,
    RerankerMain.rerank (fun _ _ => ()) (fun _ : Unit => [[(0:ℝ)], [0]]) "q" ["a", "b"] =
      PyVal.vec scores ∧
    scores.length = 2 ∧ ∀ s ∈ scores, 0 ≤ s ∧ s ≤ 1 := by
  obtain ⟨scores, h1, h2, _, h4⟩ :=
    C1_rerank_length_order_bounds (fun _ _ => ()) (fun _ : Unit => [[(0:ℝ)], [0]]) "q" ["a", "b"]
      (by intro row hrow; simp only [List.mem_cons, List.not_mem_nil, or_false] at hrow
          rcases hrow with rfl | rfl <;> rfl)
      rfl
  exact ⟨scores, h1, by simpa using h2, h4⟩

/-- C4: a rerank request with exactly one document returns a
one-element sequence, never a bare scalar; moreover the scalar guard
of the code re-wraps any bare scalar into a one-element sequence. -/
theorem C4_single_document_vec {E : Type} (tok : List String → List String → E)
    (modelLogits : E → List (List ℝ)) (query d : String)
    (hshape : ∀ row ∈ modelLogits (tok (RerankerMain.pairedQueries query [d]) [d]),
      row.length = 1)
    (hlen : (modelLogits (tok (RerankerMain.pairedQueries query [d]) [d])).length = 1) :
    (∃ x : ℝ, RerankerMain.rerank tok modelLogits query [d] = PyVal.vec [x]) ∧
    ∀ y : ℝ, rescueScalar (PyVal.scalar y) = PyVal.vec [y] := by
  constructor
  · obtain ⟨row, hrow⟩ := List.length_eq_one.mp hlen
    refine ⟨sigmoid (row.headD 0), ?_⟩
    rw [rerank_eq_vec tok modelLogits query [d] hshape, hrow]
    rfl
  · intro y
    rfl

/-- Witness for C4 at a concrete one-document request. -/
theorem C4_witness :
    (∃ x : ℝ, RerankerMain.rerank (fun _ _ => ()) (fun _ : Unit => [[(2:ℝ)]]) "q" ["doc"] =
      PyVal.vec [x]) ∧
    rescueScalar (PyVal.scalar 7) = PyVal.vec [7] := by
  have h := C4_single_document_vec (fun _ _ => ()) (fun _ : Unit => [[(2:ℝ)]]) "q" "doc"
    (by intro row hrow; simp only [List.mem_cons, List.not_mem_nil, or_false] at hrow
        rw [hrow]; rfl)
    rfl
  exact ⟨h.1, h.2 7⟩

namespace Embedding

/-- The model identifier of the embedding service. -/
def model_id : String := "BAAI/bge-small-en-v1.5"

/-- The output of the tokenizer: the attention mask (one 0/1 row per
text) plus the rest of the encoding, opaque to this embedding and
consumed only by the model. -/
structure Encoded (α : Type) where
  attention_mask : List (List ℝ)
  payload : α

/-- One batch row of `mean_pooling` in src/src/embedding/main.py:
for each hidden dimension j, the mask-weighted sum of the token
embeddings at j divided by the mask total clamped to at least 1e-9
(`torch.clamp(input_mask_expanded.sum(1), min=1e-9)`). -/
noncomputable def meanPoolRow (emb : List (List ℝ)) (mask : List ℝ) : List ℝ :=
  (List.range (emb.headD []).length).map (fun j =>
    ((emb.zip mask).map (fun p => p.1.getD j 0 * p.2)).sum / max mask.sum (1e-9))

/-- src/src/embedding/main.py `mean_pooling` over the whole batch. -/
noncomputable def mean_pooling (token_embeddings : List (List (List ℝ)))
    (attention_mask : List (List ℝ)) : List (List ℝ) :=
  (token_embeddings.zip attention_mask).map (fun bm => meanPoolRow bm.1 bm.2)

/-- src/src/embedding/main.py `embed`: tokenize (abstract `tok`), run
the model (abstract, yielding `model_output[0]`, the per-token hidden
states), mean-pool with the attention mask, L2-normalize each row, and
return the vectors plus `len(embeddings_list[0]) if embeddings_list
else 0`. -/
noncomputable def embed {α : Type} (tok : List String → Encoded α)
    (model : Encoded α → List (List (List ℝ))) (texts : List String) :
    List (List ℝ) × ℕ :=
  let encoded_input := tok texts
  let model_output := model encoded_input
  let embeddings := mean_pooling model_output encoded_input.attention_mask
  let normalized := embeddings.map l2normalize
  let dimensions := match normalized with
    | [] => 0
    | r :: _ => r.length
  (normalized, dimensions)

end Embedding

/-- C6: mean pooling is invariant to padding: appending masked-out
positions (mask value 0, arbitrary token embeddings) to a row leaves
the pooled vector exactly unchanged, and the divisor is clamped to the
positive floor 1e-9, so the division is defined even for an
all-padding row. -/
theorem C6_mean_pooling_padding_invariant
    (emb padEmb : List (List ℝ)) (mask : List ℝ) (k : ℕ)
    (hne : emb ≠ []) (hlen : emb.length = mask.length) :
    Embedding.meanPoolRow (emb ++ padEmb) (mask ++ List.replicate k 0) =
      Embedding.meanPoolRow emb mask ∧
    (0:ℝ) < max mask.sum (1e-9) := by
  constructor
  · unfold Embedding.meanPoolRow
    have hhead : (emb ++ padEmb).headD [] = emb.headD [] := by
      cases emb with
      | nil => exact absurd rfl hne
      | cons a l => rfl
    rw [hhead]
    apply List.map_congr_left
    intro j _
    have hzip : (emb ++ padEmb).zip (mask ++ List.replicate k 0) =
        emb.zip mask ++ padEmb.zip (List.replicate k 0) := List.zip_append hlen
    rw [hzip, List.map_append, List.sum_append]
    have hzero : ((padEmb.zip (List.replicate k 0)).map
        (fun p => p.1.getD j 0 * p.2)).sum = 0 := by
      apply List.sum_eq_zero
      intro x hx
      simp only [List.mem_map] at hx
      obtain ⟨p, hp, rfl⟩ := hx
      have h2 : p.2 ∈ List.replicate k (0:ℝ) := (List.of_mem_zip hp).2
      rw [List.eq_of_mem_replicate h2, mul_zero]
    have hmask : (mask ++ List.replicate k (0:ℝ)).sum = mask.sum := by
      rw [List.sum_append, List.sum_replicate, smul_zero, add_zero]
    rw [hzero, hmask, add_zero]
  · exact lt_of_lt_of_le (by norm_num) (le_max_right _ _)

/-- Witness for C6: one real token with value row [1], one padded
position with arbitrary row [5]. -/
theorem C6_witness :
    Embedding.meanPoolRow ([[(1:ℝ)]] ++ [[(5:ℝ)]]) ([1] ++ List.replicate 1 0) =
      Embedding.meanPoolRow [[(1:ℝ)]] [1] ∧
    (0:ℝ) < max (List.sum [(1:ℝ)]) (1e-9) :=
  C6_mean_pooling_padding_invariant [[(1:ℝ)]] [[(5:ℝ)]] [1] 1 (by simp) rfl

theorem sum_sq_nonneg (u : List ℝ) : 0 ≤ (u.map (fun x => x ^ 2)).sum := by
  apply List.sum_nonneg
  intro x hx
  simp only [List.mem_map] at hx
  obtain ⟨y, _, rfl⟩ := hx
  exact sq_nonneg y

theorem l2norm_map_div (u : List ℝ) (c : ℝ) (hc : 0 < c) :
    l2norm (u.map (fun x => x / c)) = l2norm u / c := by
  unfold l2norm
  rw [List.map_map]
  have h1 : ((fun x => x ^ 2) ∘ fun x : ℝ => x / c) = fun x => x ^ 2 * (c ^ 2)⁻¹ := by
    funext x
    show (x / c) ^ 2 = x ^ 2 * (c ^ 2)⁻¹
    rw [div_pow, div_eq_mul_inv]
  rw [h1, List.sum_map_mul_right, Real.sqrt_mul (sum_sq_nonneg u), Real.sqrt_inv,
    Real.sqrt_sq hc.le, div_eq_mul_inv]

theorem l2norm_l2normalize (u : List ℝ) (h : (1e-12:ℝ) ≤ l2norm u) :
    l2norm (l2normalize u) = 1 := by
  have hpos : 0 < l2norm u := lt_of_lt_of_le (by norm_num) h
  unfold l2normalize
  rw [max_eq_left h, l2norm_map_div u (l2norm u) hpos, div_self (ne_of_gt hpos)]

/-- C5 (amended): under the model emitting one non-empty width-D token
matrix per text, a request for M >= 1 texts returns M vectors that all
have dimensionality D, which is also returned; each returned vector is
the F.normalize image of its pooled vector, and every individual
pooled vector whose L2 norm clears the 1e-12 normalization floor
yields a returned vector of L2 norm exactly 1 — regardless of any
other (possibly degenerate) row of the same batch. -/
theorem C5_amended_norm_and_dims {α : Type} (tok : List String → Embedding.Encoded α)
    (model : Embedding.Encoded α → List (List (List ℝ))) (texts : List String) (D : ℕ)
    (hM : texts ≠ [])
    (hout : (model (tok texts)).length = texts.length)
    (hmask : (tok texts).attention_mask.length = texts.length)
    (hshape : ∀ item ∈ model (tok texts), item ≠ [] ∧ ∀ row ∈ item, row.length = D) :
    (Embedding.embed tok model texts).2 = D ∧
    (Embedding.embed tok model texts).1.length = texts.length ∧
    (Embedding.embed tok model texts).1 =
      (Embedding.mean_pooling (model (tok texts)) (tok texts).attention_mask).map
        l2normalize ∧
    (∀ v ∈ (Embedding.embed tok model texts).1, v.length = D) ∧
    ∀ u ∈ Embedding.mean_pooling (model (tok texts)) (tok texts).attention_mask,
      (1e-12:ℝ) ≤ l2norm u → l2norm (l2normalize u) = 1 := by
  have hpool_len : ∀ v ∈ Embedding.mean_pooling (model (tok texts)) (tok texts).attention_mask,
      v.length = D := by
    intro v hv
    simp only [Embedding.mean_pooling, List.mem_map] at hv
    obtain ⟨bm, hbm, rfl⟩ := hv
    obtain ⟨hne, hrows⟩ := hshape bm.1 (List.of_mem_zip hbm).1
    unfold Embedding.meanPoolRow
    rw [List.length_map, List.length_range]
    cases hc : bm.1 with
    | nil => exact absurd hc hne
    | cons r rest =>
      exact hrows r (by rw [hc]; exact List.mem_cons_self r rest)
  have h1 : (Embedding.embed tok model texts).1 =
      (Embedding.mean_pooling (model (tok texts)) (tok texts).attention_mask).map
        l2normalize := rfl
  have hlen1 : (Embedding.embed tok model texts).1.length = texts.length := by
    rw [h1, List.length_map]
    unfold Embedding.mean_pooling
    rw [List.length_map, List.length_zip, hout, hmask, min_self]
  have hmem : ∀ v ∈ (Embedding.embed tok model texts).1, v.length = D := by
    intro v hv
    rw [h1] at hv
    simp only [List.mem_map] at hv
    obtain ⟨u, hu, rfl⟩ := hv
    rw [l2normalize, List.length_map]
    exact hpool_len u hu
  refine ⟨?_, hlen1, h1, hmem, fun u _ hfloor => l2norm_l2normalize u hfloor⟩
  cases hN : (Embedding.embed tok model texts).1 with
  | nil =>
    rw [hN] at hlen1
    exact absurd (List.length_eq_zero.mp hlen1.symm) hM
  | cons r rest =>
    have hr : r ∈ (Embedding.embed tok model texts).1 := by
      rw [hN]
      exact List.mem_cons_self r rest
    have h2 : (Embedding.embed tok model texts).2 =
        match (Embedding.embed tok model texts).1 with
        | [] => 0
        | r :: _ => r.length := rfl
    rw [h2, hN]
    exact hmem r hr

/-- Witness for C5 (amended) at one text whose pooled vector is [3,4]:
two dimensions are returned, one vector comes back, and the pooled
vector clears the 1e-12 floor so its normalized image has norm 1. -/
theorem C5_witness :
    (Embedding.embed (fun _ => ⟨[[1]], ()⟩)
      (fun _ : Embedding.Encoded Unit => [[[(3:ℝ), 4]]]) ["a"]).2 = 2 ∧
    (Embedding.embed (fun _ => ⟨[[1]], ()⟩)
      (fun _ : Embedding.Encoded Unit => [[[(3:ℝ), 4]]]) ["a"]).1.length = 1 ∧
    (∀ v ∈ (Embedding.embed (fun _ => ⟨[[1]], ()⟩)
      (fun _ : Embedding.Encoded Unit => [[[(3:ℝ), 4]]]) ["a"]).1, v.length = 2) ∧
    l2norm (l2normalize [(3:ℝ), 4]) = 1 := by
  have hmp : Embedding.mean_pooling [[[(3:ℝ), 4]]] [[1]] = [[3, 4]] := by
    unfold Embedding.mean_pooling Embedding.meanPoolRow
    have hmax : max (List.sum [(1:ℝ)]) (1e-9) = 1 := by
      rw [max_eq_left] <;> norm_num
    norm_num [List.range_succ, hmax]
  have h5 : l2norm [(3:ℝ), 4] = 5 := by
    have h25 : (([(3:ℝ), 4]).map (fun x => x ^ 2)).sum = 25 := by norm_num
    rw [l2norm, h25, show (25:ℝ) = 5 ^ 2 by norm_num, Real.sqrt_sq (by norm_num)]
  have h := C5_amended_norm_and_dims (fun _ => ⟨[[1]], ()⟩)
    (fun _ : Embedding.Encoded Unit => [[[(3:ℝ), 4]]]) ["a"] 2
    (by simp)
    rfl
    rfl
    (by intro item hitem
        simp only [List.mem_cons, List.not_mem_nil, or_false] at hitem
        subst hitem
        refine ⟨by simp, ?_⟩
        intro row hrow
        simp only [List.mem_cons, List.not_mem_nil, or_false] at hrow
        subst hrow
        rfl)
  refine ⟨h.1, by simpa using h.2.1, h.2.2.2.1, ?_⟩
  exact h.2.2.2.2 [(3:ℝ), 4]
    (by show [(3:ℝ), 4] ∈ Embedding.mean_pooling [[[(3:ℝ), 4]]] [[1]]
        rw [hmp]
        exact List.mem_cons_self _ _)
    (by rw [h5]; norm_num)

/-- Counterexample for C5 as stated: a model whose token embeddings
are all zero yields the zero pooled vector, which F.normalize maps to
the zero vector again (division by the eps floor), so the returned
embedding has L2 norm 0, not within 1e-5 of 1. -/
theorem C5_counterexample :
    (Embedding.embed (fun _ => ⟨[[1]], ()⟩)
      (fun _ : Embedding.Encoded Unit => [[[(0:ℝ)]]]) ["a"]).1 = [[0]] ∧
    l2norm [(0:ℝ)] = 0 ∧ ¬ |l2norm [(0:ℝ)] - 1| ≤ 1e-5 := by
  have hz : l2norm [(0:ℝ)] = 0 := by
    rw [l2norm]
    norm_num
  have hmp : Embedding.mean_pooling [[[(0:ℝ)]]] [[1]] = [[0]] := by
    unfold Embedding.mean_pooling Embedding.meanPoolRow
    norm_num
  refine ⟨?_, hz, by rw [hz]; norm_num⟩
  have h1 : (Embedding.embed (fun _ => ⟨[[1]], ()⟩)
      (fun _ : Embedding.Encoded Unit => [[[(0:ℝ)]]]) ["a"]).1 =
      (Embedding.mean_pooling [[[(0:ℝ)]]] [[1]]).map l2normalize := rfl
  rw [h1, hmp]
  norm_num [l2normalize, hz]

/-- C3 (refuted): with zero documents / zero texts the code still
calls the tokenizer and the model: the rerank response is determined
by the model output on the empty batch (two models that differ only
there give different responses), and the embed response's dimensions
need not be 0. -/
theorem C3_empty_input_still_invokes_model :
    RerankerMain.rerank (fun _ _ => ()) (fun _ : Unit => ([] : List (List ℝ))) "q" [] =
      PyVal.vec [] ∧
    RerankerMain.rerank (fun _ _ => ()) (fun _ : Unit => [[(0:ℝ)]]) "q" [] =
      PyVal.vec [sigmoid 0] ∧
    PyVal.vec [] ≠ PyVal.vec [sigmoid 0] ∧
    (Embedding.embed (fun _ => ⟨[[1]], ()⟩)
      (fun _ : Embedding.Encoded Unit => [[[(0:ℝ)]]]) []).2 = 1 := by
  refine ⟨?_, ?_, by simp, ?_⟩
  · simp [RerankerMain.rerank, RerankerMain.pairedQueries, squeezeLastTolist, rescueScalar]
  · simp [RerankerMain.rerank, RerankerMain.pairedQueries, squeezeLastTolist, rescueScalar]
  · simp [Embedding.embed, Embedding.mean_pooling, Embedding.meanPoolRow, l2normalize]

namespace Lifecycle

/-- The module-level state of either service: the globals
`model = None` and `tokenizer = None` that the lifespan startup later
fills in. -/
structure ServiceState (M T : Type) where
  model : Option M
  tokenizer : Option T

/-- The initial state of the python module: both globals are None. -/
def initState (M T : Type) : ServiceState M T := ⟨none, none⟩

/-- The lifespan startup of either service: store the freshly loaded
model and tokenizer in the globals. -/
def load {M T : Type} (_s : ServiceState M T) (m : M) (t : T) : ServiceState M T :=
  ⟨some m, some t⟩

/-- A health endpoint response. -/
structure HealthResponse where
  status : String
  modelName : String

/-- src/reranker/main.py `health_check`: returns
{"status": "healthy", "model": model_id} without consulting the
state. -/
def rerank_health_check {M T : Type} (_s : ServiceState M T) : HealthResponse :=
  ⟨"healthy", RerankerMain.model_id⟩

/-- src/src/embedding/main.py `health_check`: likewise unconditional. -/
def embed_health_check {M T : Type} (_s : ServiceState M T) : HealthResponse :=
  ⟨"healthy", Embedding.model_id⟩

end Lifecycle

/-- Counterexample for C8 as stated: in the initial state, before any
load has completed (the model global is still None), both health
endpoints already report "healthy". -/
theorem C8_counterexample :
    (Lifecycle.rerank_health_check (Lifecycle.initState Unit Unit)).status = "healthy" ∧
    (Lifecycle.embed_health_check (Lifecycle.initState Unit Unit)).status = "healthy" ∧
    (Lifecycle.initState Unit Unit).model = none :=
  ⟨rfl, rfl, rfl⟩

/-- C8 (amended): the readiness probes of both services report status
"healthy" with the model identifier in every state, including states
where the model is not yet loaded; the probe itself never reports an
unready status. -/
theorem C8_health_check_unconditional {M T : Type} (s : Lifecycle.ServiceState M T) :
    Lifecycle.rerank_health_check s = ⟨"healthy", RerankerMain.model_id⟩ ∧
    Lifecycle.embed_health_check s = ⟨"healthy", Embedding.model_id⟩ :=
  ⟨rfl, rfl⟩

namespace Qwen3

/-- The maximum sequence length of the causal-LM reranker. -/
def MAX_LENGTH : ℕ := 8192

/-- The default relevance-judgment instruction of
src/reranker/reranker-qwen3.py `format_instruction`. -/
def default_instruction : String :=
  "Given a web search query, retrieve relevant passages that answer the query"

/-- src/reranker/reranker-qwen3.py `format_instruction`. -/
def format_instruction (instruction : Option String) (query doc : String) : String :=
  let instr := match instruction with
    | none => default_instruction
    | some s => s
  "<Instruct>: " ++ instr ++ "\n<Query>: " ++ query ++ "\n<Document>: " ++ doc

/-- The fixed system/user preamble prepended to each prompt (the
module-level string the python file binds just before the suffix). -/
def preStr : String :=
  "<|im_start|>system\nJudge whether the Document meets the requirements based on the Query and the Instruct provided. Note that the answer can only be \"yes\" or \"no\".<|im_end|>\n<|im_start|>user\n"

/-- The fixed closing sequence that primes the model to answer yes or
no (the module-level suffix string). -/
def sufStr : String :=
  "<|im_end|>\n<|im_start|>assistant\n<think>\n\n</think>\n\n"

/-- The prompt texts built by the loop in `build_inputs`. -/
def buildTexts (queries documents : List String) (instruction : Option String) :
    List String :=
  (queries.zip documents).map
    (fun qd => preStr ++ format_instruction instruction qd.1 qd.2 ++ sufStr)

/-- src/reranker/reranker-qwen3.py `build_inputs`: assert that the two
lists have equal length (the AssertionError is modelled as `.error`),
render every pair through the prompt template, then tokenize all texts
in one call (abstract `tok`). -/
def build_inputs {E : Type} (tok : List String → E)
    (queries documents : List String) (instruction : Option String) : Except String E :=
  if queries.length = documents.length then
    .ok (tok (buildTexts queries documents instruction))
  else
    .error "queries and documents must be same length"

/-- src/reranker/reranker-qwen3.py `compute_logits` on the batch of
per-position vocabulary logits returned by the model: take the final
position of each sequence (`logits[:, -1, :]`), gather the yes and no
logits, stack them as (no, yes), log-softmax over that 2-way axis and
exponentiate the yes entry. -/
noncomputable def compute_logits (token_true_id token_false_id : ℕ)
    (logits : List (List (List ℝ))) : List ℝ :=
  let batch_scores := logits.map (fun seq => seq.getLastD [])
  let true_vector := batch_scores.map (fun row => row.getD token_true_id 0)
  let false_vector := batch_scores.map (fun row => row.getD token_false_id 0)
  let stacked := (false_vector.zip true_vector).map (fun p => [p.1, p.2])
  let log_probs := stacked.map logSoftmax
  log_probs.map (fun row => Real.exp (row.getD 1 0))

/-- The yes logit at the final position of one sequence. -/
def yesLogit (token_true_id : ℕ) (seq : List (List ℝ)) : ℝ :=
  (seq.getLastD []).getD token_true_id 0

/-- The no logit at the final position of one sequence. -/
def noLogit (token_false_id : ℕ) (seq : List (List ℝ)) : ℝ :=
  (seq.getLastD []).getD token_false_id 0

end Qwen3

/-- Modelled from the spec (claim C10's wording): the claimed
equivalent decision rule, the logistic sigmoid of the yes/no logit
gap. -/
noncomputable def sigmoidScore (yes no : ℝ) : ℝ := sigmoid (yes - no)

theorem logSoftmax_pair_getD1 (a b : ℝ) :
    (logSoftmax [a, b]).getD 1 0 = b - Real.log (Real.exp a + Real.exp b) := by
  simp [logSoftmax]

theorem logSoftmax_pair_getD0 (a b : ℝ) :
    (logSoftmax [a, b]).getD 0 0 = a - Real.log (Real.exp a + Real.exp b) := by
  simp [logSoftmax]

theorem exp_sub_log_sum (a b : ℝ) :
    Real.exp (b - Real.log (Real.exp a + Real.exp b)) =
      Real.exp b / (Real.exp a + Real.exp b) := by
  rw [Real.exp_sub, Real.exp_log (by positivity)]

theorem compute_logits_via_last (t f : ℕ) (logits : List (List (List ℝ))) :
    Qwen3.compute_logits t f logits =
      (logits.map (fun seq => seq.getLastD [])).map (fun row =>
        Real.exp ((logSoftmax [row.getD f 0, row.getD t 0]).getD 1 0)) := by
  simp only [Qwen3.compute_logits, List.map_map, List.zip_map']
  rfl

theorem compute_logits_closed_form (t f : ℕ) (logits : List (List (List ℝ))) :
    Qwen3.compute_logits t f logits =
      logits.map (fun seq =>
        Real.exp (Qwen3.yesLogit t seq) /
          (Real.exp (Qwen3.noLogit f seq) + Real.exp (Qwen3.yesLogit t seq))) := by
  rw [compute_logits_via_last, List.map_map]
  apply List.map_congr_left
  intro seq _
  show Real.exp ((logSoftmax [(seq.getLastD []).getD f 0, (seq.getLastD []).getD t 0]).getD 1 0) = _
  rw [logSoftmax_pair_getD1, exp_sub_log_sum]
  rfl

theorem sigmoid_eq_exp_div (a b : ℝ) :
    sigmoid (b - a) = Real.exp b / (Real.exp a + Real.exp b) := by
  have ha := Real.exp_ne_zero a
  have hb := Real.exp_ne_zero b
  have hs : Real.exp a + Real.exp b ≠ 0 := by positivity
  unfold sigmoid
  rw [neg_sub, Real.exp_sub]
  field_simp
  ring

/-- C2: the causal-LM scorer derives one score per sequence in order;
each score comes from the final sequence position only (two batches
whose final-position logits agree get equal scores), equals the
exponential of the yes entry of the 2-way log-softmax over the stacked
(no, yes) logits gathered at the fixed token ids, and lies in [0,1]. -/
theorem C2_yes_no_log_softmax_scoring (t f : ℕ) (logits : List (List (List ℝ))) :
    (Qwen3.compute_logits t f logits).length = logits.length ∧
    Qwen3.compute_logits t f logits =
      logits.map (fun seq =>
        Real.exp ((logSoftmax [Qwen3.noLogit f seq, Qwen3.yesLogit t seq]).getD 1 0)) ∧
    (∀ other : List (List (List ℝ)),
      other.map (fun seq => seq.getLastD []) = logits.map (fun seq => seq.getLastD []) →
      Qwen3.compute_logits t f other = Qwen3.compute_logits t f logits) ∧
    ∀ s ∈ Qwen3.compute_logits t f logits, 0 ≤ s ∧ s ≤ 1 := by
  refine ⟨?_, ?_, ?_, ?_⟩
  · rw [compute_logits_via_last, List.length_map, List.length_map]
  · rw [compute_logits_via_last, List.map_map]
    rfl
  · intro other h
    rw [compute_logits_via_last, compute_logits_via_last, h]
  · intro s hs
    rw [compute_logits_closed_form] at hs
    simp only [List.mem_map] at hs
    obtain ⟨seq, _, rfl⟩ := hs
    constructor
    · positivity
    · rw [div_le_one (by positivity)]
      exact le_add_of_nonneg_left (Real.exp_pos _).le

/-- Witness for C2 at one sequence with final-position logits [1, 2],
yes id 1, no id 0; the "other" batch adds an earlier position that the
score ignores. -/
theorem C2_witness :
    (Qwen3.compute_logits 1 0 [[[(1:ℝ), 2]]]).length = 1 ∧
    Qwen3.compute_logits 1 0 [[[(9:ℝ), 9], [1, 2]]] =
      Qwen3.compute_logits 1 0 [[[(1:ℝ), 2]]] ∧
    ∀ s ∈ Qwen3.compute_logits 1 0 [[[(1:ℝ), 2]]], 0 ≤ s ∧ s ≤ 1 := by
  have h := C2_yes_no_log_softmax_scoring 1 0 [[[(1:ℝ), 2]]]
  exact ⟨h.1, h.2.2.1 [[[(9:ℝ), 9], [1, 2]]] rfl, h.2.2.2⟩

/-- C10: the score of `compute_logits` is extensionally the logistic
sigmoid of (yes logit - no logit) at the final position; every score
is strictly between 0 and 1, and the implied no-probability is one
minus the score. -/
theorem C10_score_is_sigmoid_of_gap (t f : ℕ) (logits : List (List (List ℝ))) :
    Qwen3.compute_logits t f logits =
      logits.map (fun seq => sigmoidScore (Qwen3.yesLogit t seq) (Qwen3.noLogit f seq)) ∧
    (∀ s ∈ Qwen3.compute_logits t f logits, 0 < s ∧ s < 1) ∧
    ∀ seq ∈ logits,
      Real.exp ((logSoftmax [Qwen3.noLogit f seq, Qwen3.yesLogit t seq]).getD 0 0) =
        1 - sigmoidScore (Qwen3.yesLogit t seq) (Qwen3.noLogit f seq) := by
  refine ⟨?_, ?_, ?_⟩
  · rw [compute_logits_closed_form]
    apply List.map_congr_left
    intro seq _
    rw [sigmoidScore, sigmoid_eq_exp_div]
  · intro s hs
    rw [compute_logits_closed_form] at hs
    simp only [List.mem_map] at hs
    obtain ⟨seq, _, rfl⟩ := hs
    constructor
    · positivity
    · rw [div_lt_one (by positivity)]
      exact lt_add_of_pos_left _ (Real.exp_pos _)
  · intro seq _
    rw [logSoftmax_pair_getD0, Real.exp_sub, Real.exp_log (by positivity),
      sigmoidScore, sigmoid_eq_exp_div, eq_sub_iff_add_eq, div_add_div_same,
      div_self (by positivity)]

/-- Witness for C10 at one sequence with final-position logits [1, 2]. -/
theorem C10_witness :
    Qwen3.compute_logits 1 0 [[[(1:ℝ), 2]]] = [sigmoidScore 2 1] ∧
    Real.exp ((logSoftmax [(1:ℝ), 2]).getD 0 0) = 1 - sigmoidScore 2 1 := by
  have h := C10_score_is_sigmoid_of_gap 1 0 [[[(1:ℝ), 2]]]
  constructor
  · rw [h.1]
    rfl
  · have h3 := h.2.2 [[(1:ℝ), 2]] (by simp)
    simpa [Qwen3.yesLogit, Qwen3.noLogit] using h3

/-- C7: under matching lengths, `build_inputs` tokenizes exactly the
texts `prefix ++ "<Instruct>: " ++ instruction ++ "\n<Query>: " ++
query ++ "\n<Document>: " ++ document ++ suffix`, where a missing
instruction defaults to the fixed relevance-judgment string. -/
theorem C7_prompt_template {E : Type} (tok : List String → E)
    (queries documents : List String) (instruction : Option String)
    (h : queries.length = documents.length) :
    Qwen3.build_inputs tok queries documents instruction =
      .ok (tok ((queries.zip documents).map (fun qd =>
        Qwen3.preStr ++ ("<Instruct>: " ++
          instruction.getD
            "Given a web search query, retrieve relevant passages that answer the query" ++
          "\n<Query>: " ++ qd.1 ++ "\n<Document>: " ++ qd.2) ++ Qwen3.sufStr))) ∧
    ∀ q d, Qwen3.format_instruction none q d =
      "<Instruct>: " ++
        "Given a web search query, retrieve relevant passages that answer the query" ++
        "\n<Query>: " ++ q ++ "\n<Document>: " ++ d := by
  constructor
  · unfold Qwen3.build_inputs
    rw [if_pos h]
    show Except.ok (tok (Qwen3.buildTexts queries documents instruction)) = _
    congr 1
    unfold Qwen3.buildTexts
    apply congrArg
    apply List.map_congr_left
    intro qd _
    cases instruction with
    | none => rfl
    | some s => rfl
  · intro q d
    rfl

/-- Witness for C7 at one query/document pair with the instruction
left unsupplied. -/
theorem C7_witness :
    Qwen3.build_inputs (fun ts => ts) ["q1"] ["d1"] none =
      .ok [Qwen3.preStr ++ ("<Instruct>: " ++
        "Given a web search query, retrieve relevant passages that answer the query" ++
        "\n<Query>: " ++ "q1" ++ "\n<Document>: " ++ "d1") ++ Qwen3.sufStr] := by
  have h := C7_prompt_template (fun ts => ts) ["q1"] ["d1"] none rfl
  simpa using h.1

/-- C9: a templated-path request whose query and document lists have
different lengths fails with the validation error, and the result does
not depend on the tokenizer at all — no tokenization is performed. -/
theorem C9_length_mismatch_rejected {E : Type} (tok : List String → E)
    (queries documents : List String) (instruction : Option String)
    (h : queries.length ≠ documents.length) :
    Qwen3.build_inputs tok queries documents instruction =
      .error "queries and documents must be same length" ∧
    ∀ tok2 : List String → E,
      Qwen3.build_inputs tok2 queries documents instruction =
        Qwen3.build_inputs tok queries documents instruction := by
  constructor
  · unfold Qwen3.build_inputs
    rw [if_neg h]
  · intro tok2
    unfold Qwen3.build_inputs
    rw [if_neg h, if_neg h]

/-- Witness for C9 at one query and zero documents. -/
theorem C9_witness :
    Qwen3.build_inputs (fun _ => ()) ["a"] [] none =
      .error "queries and documents must be same length" :=
  (C9_length_mismatch_rejected (fun _ => ()) ["a"] [] none (by decide)).1
